import Mathlib

/-!
Verification of the iofuzzer dispatch-and-observe engine.

The definitions below shallowly embed `src/lib/io_fuzzer.c` and the default
handlers of `src/main.c`.  The input-derivation engine (`input.h`) and the
hardware port-access primitives (`io.h`) are external collaborators whose
code is not part of the sources; the input derivers are modelled from the
spec's contract (§6) and the hardware primitives are modelled as trace
events, since they are side-effect-only from this system's point of view.
-/

namespace IoFuzz

/-! ## Byte stream and input-derivation contract -/

/-- A byte-stream cursor: the underlying data and the current position.
Mirrors a `FILE *` input stream read sequentially. -/
structure Stream where
  data : List Nat
  pos : Nat
deriving DecidableEq

/-- The byte at offset `i` from the cursor.  Modelled from the spec:
exhaustion of the stream is handled by treating remaining bytes as
zero-filled (§6 allows this policy choice of the external contract). -/
def byteAt (s : Stream) (i : Nat) : Nat :=
  ((s.data.drop s.pos).getD i 0) % 256

/-- Advance the cursor by `n` bytes. -/
def advance (s : Stream) (n : Nat) : Stream :=
  Stream.mk s.data (s.pos + n)

/-- Modelled from the spec: `read_fixed(8)` consumes exactly one byte (§6). -/
def input_read8 (s : Stream) : Nat × Stream :=
  (byteAt s 0, advance s 1)

/-- Modelled from the spec: `read_fixed(16)` consumes exactly two bytes (§6),
little-endian. -/
def input_read16 (s : Stream) : Nat × Stream :=
  (byteAt s 0 + 256 * byteAt s 1, advance s 2)

/-- Modelled from the spec: `read_fixed(32)` consumes exactly four bytes (§6),
little-endian. -/
def input_read32 (s : Stream) : Nat × Stream :=
  (byteAt s 0 + 256 * byteAt s 1 + 65536 * byteAt s 2 + 16777216 * byteAt s 3,
   advance s 4)

/-- Modelled from the spec: `derive_range(min,max)` yields a bounded value in
`[lo, hi]` and consumes a deterministic number of bytes (§6); here four bytes
reduced into the range. -/
def input_derive_range (s : Stream) (lo hi : Nat) : Nat × Stream :=
  let r := input_read32 s
  (lo + r.1 % (hi - lo + 1), r.2)

/-- Modelled from the spec: `read_buffer(width, count)` consumes exactly
`count * width/8` bytes of content (§6).  Used by `input_read_string8/16/32`. -/
def input_read_buffer (s : Stream) (elemBytes count : Nat) : List Nat × Stream :=
  ((List.range (count * elemBytes)).map (byteAt s), advance s (count * elemBytes))

/-! ## Log values and events -/

/-- A single variadic argument as consumed by the logger: an integer-like
value (scalar, port, count, or a pointer read as an integer) or a `char *`
string. -/
inductive CVal
  | num (n : Nat)
  | str (s : String)
deriving DecidableEq

/-- The kind of a hardware primitive, per the operation catalog. -/
inductive PrimKind
  | scalarRead
  | scalarWrite
  | stringRead
  | stringWrite
deriving DecidableEq

/-- One invocation of a hardware port-access primitive (external, modelled as
a trace event since the primitives are side-effect-only). -/
structure PrimCall where
  name : String
  width : Nat
  kind : PrimKind
  port : Nat
  value : Option Nat
  count : Option Nat
  data : Option (List Nat)
deriving DecidableEq

/-- An observable event of one dispatch cycle: a call to `io_fuzzer_log`
(format string plus key/value pairs), a hardware-primitive invocation, or a
call to `io_fuzzer_error` (the Fatal Error Reporter entry point). -/
inductive Event
  | log (fmt : String) (args : List (String × CVal))
  | prim (p : PrimCall)
  | errorReport (status : Int) (error : Int) (msg : String)
deriving DecidableEq

/-- The operands derived from the stream for one catalog operation. -/
inductive Operands
  | noOperands
  | value (v : Nat)
  | stringRead (count : Nat)
  | stringWrite (count : Nat) (data : List Nat)
deriving DecidableEq

/-! ## Handler models -/

/-- What a log handler writes to the log stream and whether it aborted,
for one call. -/
structure LogOutcome where
  output : List Char
  aborted : Bool
deriving DecidableEq

/-- A log handler's behavior: from the current time, the format string and
the key/value varargs, to the characters written and the abort flag.
Mirrors `io_fuzzer_log_handler_t`. -/
def LHandler : Type := Nat → String → List (String × CVal) → LogOutcome

/-- An effect of an error handler: flushes, diagnostic writes, and abnormal
process termination. -/
inductive ErrEvent
  | flushStdout
  | writeStderr (msg : String)
  | writeStderrErrno (error : Int)
  | flushStderr
  | abortProc
deriving DecidableEq

/-- The observable outcome of reporting an error: the effects performed and
whether the process terminated abnormally (so control never returns to the
caller). -/
structure ErrOutcome where
  events : List ErrEvent
  terminated : Bool
deriving DecidableEq

/-- An error handler's behavior.  Mirrors `io_fuzzer_error_handler_t`
(status, OS error code, message). -/
def EHandler : Type := Int → Int → String → ErrOutcome

/-! ## The fuzzer instance (`struct _io_fuzzer`) -/

/-- `#define MAX_PORTS 65536` from `io_fuzzer.c`. -/
def MAX_PORTS : Nat := 65536

/-- `#define MAX_STRING (sizeof(uint32_t) * UINT16_MAX)` from `io_fuzzer.c`:
the capacity in bytes of the scratch string buffer. -/
def MAX_STRING : Nat := 4 * 65535

/-- `struct _io_fuzzer`: the port allow-list (`NULL` modelled as `none`),
its length, and the optional log handler and log stream.  The log stream
(`FILE *`) is modelled as an opaque identifier. -/
structure IOFuzzer where
  ports : Option (List Int)
  num_ports : Nat
  log_handler : Option LHandler
  log_stream : Option Nat

/-- The process-wide error-handler singleton starts out `NULL`
(`static io_fuzzer_error_handler_t *error_handler = NULL`). -/
def initial_error_handler : Option EHandler := none

/-- `io_fuzzer_error`: forwards to the installed handler; a no-op returning
to the caller when no handler is installed. -/
def io_fuzzer_error (error_handler : Option EHandler)
    (status error : Int) (msg : String) : ErrOutcome :=
  match error_handler with
  | none => ErrOutcome.mk [] false
  | some h => h status error msg

/-- The result of `io_fuzzer_create`: the returned instance (`none` models a
`NULL` return), the error-reporting effects, and whether the process
terminated inside the error handler before `create` could return. -/
structure CreateResult where
  result : Option IOFuzzer
  events : List ErrEvent
  terminated : Bool

/-- `io_fuzzer_create`: on allocation failure (`allocOk = false`) it reports
through `io_fuzzer_error` and, if the handler returns, returns `NULL`;
otherwise it stores the port list and length into the fresh instance. -/
def io_fuzzer_create (error_handler : Option EHandler) (allocOk : Bool)
    (ports : Option (List Int)) (num_ports : Nat) (errno : Int) : CreateResult :=
  if allocOk then
    CreateResult.mk (some (IOFuzzer.mk ports num_ports none none)) [] false
  else
    let e := io_fuzzer_error error_handler 0 errno "io_fuzzer_create"
    CreateResult.mk none e.events e.terminated

/-- `io_fuzzer_set_error_handler`: swaps the process-wide handler singleton,
returning the previous one.  It takes no instance and touches no instance
field. -/
def io_fuzzer_set_error_handler (error_handler : Option EHandler)
    (handler : Option EHandler) : Option EHandler × Option EHandler :=
  (error_handler, handler)

/-- `io_fuzzer_set_log_handler`: installs a log handler on the instance and
returns the previous one. -/
def io_fuzzer_set_log_handler (f : IOFuzzer) (handler : Option LHandler) :
    Option LHandler × IOFuzzer :=
  (f.log_handler, IOFuzzer.mk f.ports f.num_ports handler f.log_stream)

/-- `io_fuzzer_set_log_stream`: installs a log stream on the instance and
returns the previous one. -/
def io_fuzzer_set_log_stream (f : IOFuzzer) (stream : Option Nat) :
    Option Nat × IOFuzzer :=
  (f.log_stream, IOFuzzer.mk f.ports f.num_ports f.log_handler stream)

/-! ## The dispatcher (`io_fuzzer_iterate`) -/

/-- The result of one dispatch cycle: the resolved port, the derived
selector, the derived operands, the trace of events (log calls, primitive
invocations, error reports) in program order, whether the cycle aborted,
and the final stream cursor. -/
structure Dispatch where
  port : Nat
  selector : Nat
  operands : Operands
  events : List Event
  aborted : Bool
  final : Stream
deriving DecidableEq

/-- Port resolution, `io_fuzzer.c` lines 69-75: with a `NULL` or empty
allow-list the port is derived in `[0, MAX_PORTS-1]`; otherwise an index is
derived in `[0, num_ports-1]` and the listed `int` entry is converted to the
`uint16_t` port (reduction modulo 2^16). -/
def resolvePort (f : IOFuzzer) (s : Stream) : Nat × Stream :=
  match f.ports with
  | none => input_derive_range s 0 (MAX_PORTS - 1)
  | some l =>
    if f.num_ports = 0 then
      input_derive_range s 0 (MAX_PORTS - 1)
    else
      let r := input_derive_range s 0 (f.num_ports - 1)
      (((l.getD r.1 0).emod 65536).toNat, r.2)

/-- The body of the `switch` in `io_fuzzer_iterate` (lines 78-170), one case
per selector value; `stringAddr` is the address of the stack scratch buffer
`uint8_t string[MAX_STRING]`, which is what the `"string"` field of the log
call receives.  The `default` case is `abort()`. -/
def dispatchCase (stringAddr port sel : Nat) (s : Stream) :
    Operands × List Event × Bool × Stream :=
  match sel with
  | 0 =>
    (Operands.noOperands,
     [Event.log "su" [("function", CVal.str "io_read16"), ("port", CVal.num port)],
      Event.prim (PrimCall.mk "io_read16" 16 PrimKind.scalarRead port none none none)],
     false, s)
  | 1 =>
    (Operands.noOperands,
     [Event.log "su" [("function", CVal.str "io_read32"), ("port", CVal.num port)],
      Event.prim (PrimCall.mk "io_read32" 32 PrimKind.scalarRead port none none none)],
     false, s)
  | 2 =>
    (Operands.noOperands,
     [Event.log "su" [("function", CVal.str "io_read8"), ("port", CVal.num port)],
      Event.prim (PrimCall.mk "io_read8" 8 PrimKind.scalarRead port none none none)],
     false, s)
  | 3 =>
    let r := input_read16 s
    (Operands.stringRead r.1,
     [Event.log "suuu" [("function", CVal.str "io_read_string16"), ("port", CVal.num port),
        ("string", CVal.num stringAddr), ("count", CVal.num r.1)],
      Event.prim (PrimCall.mk "io_read_string16" 16 PrimKind.stringRead port none (some r.1) none)],
     false, r.2)
  | 4 =>
    let r := input_read16 s
    (Operands.stringRead r.1,
     [Event.log "suuu" [("function", CVal.str "io_read_string32"), ("port", CVal.num port),
        ("string", CVal.num stringAddr), ("count", CVal.num r.1)],
      Event.prim (PrimCall.mk "io_read_string32" 32 PrimKind.stringRead port none (some r.1) none)],
     false, r.2)
  | 5 =>
    let r := input_read16 s
    (Operands.stringRead r.1,
     [Event.log "suuu" [("function", CVal.str "io_read_string8"), ("port", CVal.num port),
        ("string", CVal.num stringAddr), ("count", CVal.num r.1)],
      Event.prim (PrimCall.mk "io_read_string8" 8 PrimKind.stringRead port none (some r.1) none)],
     false, r.2)
  | 6 =>
    let r := input_read16 s
    (Operands.value r.1,
     [Event.log "suu" [("function", CVal.str "io_write16"), ("port", CVal.num port),
        ("value", CVal.num r.1)],
      Event.prim (PrimCall.mk "io_write16" 16 PrimKind.scalarWrite port (some r.1) none none)],
     false, r.2)
  | 7 =>
    let r := input_read32 s
    (Operands.value r.1,
     [Event.log "suu" [("function", CVal.str "io_write32"), ("port", CVal.num port),
        ("value", CVal.num r.1)],
      Event.prim (PrimCall.mk "io_write32" 32 PrimKind.scalarWrite port (some r.1) none none)],
     false, r.2)
  | 8 =>
    let r := input_read8 s
    (Operands.value r.1,
     [Event.log "suu" [("function", CVal.str "io_write8"), ("port", CVal.num port),
        ("value", CVal.num r.1)],
      Event.prim (PrimCall.mk "io_write8" 8 PrimKind.scalarWrite port (some r.1) none none)],
     false, r.2)
  | 9 =>
    let r := input_read16 s
    let b := input_read_buffer r.2 2 r.1
    (Operands.stringWrite r.1 b.1,
     [Event.log "suuu" [("function", CVal.str "io_write_string16"), ("port", CVal.num port),
        ("string", CVal.num stringAddr), ("count", CVal.num r.1)],
      Event.prim (PrimCall.mk "io_write_string16" 16 PrimKind.stringWrite port none (some r.1) (some b.1))],
     false, b.2)
  | 10 =>
    let r := input_read16 s
    let b := input_read_buffer r.2 4 r.1
    (Operands.stringWrite r.1 b.1,
     [Event.log "suuu" [("function", CVal.str "io_write_string32"), ("port", CVal.num port),
        ("string", CVal.num stringAddr), ("count", CVal.num r.1)],
      Event.prim (PrimCall.mk "io_write_string32" 32 PrimKind.stringWrite port none (some r.1) (some b.1))],
     false, b.2)
  | 11 =>
    let r := input_read16 s
    let b := input_read_buffer r.2 1 r.1
    (Operands.stringWrite r.1 b.1,
     [Event.log "suuu" [("function", CVal.str "io_write_string8"), ("port", CVal.num port),
        ("string", CVal.num stringAddr), ("count", CVal.num r.1)],
      Event.prim (PrimCall.mk "io_write_string8" 8 PrimKind.stringWrite port none (some r.1) (some b.1))],
     false, b.2)
  | _ =>
    (Operands.noOperands, [], true, s)

/-- `io_fuzzer_iterate`, lines 67-171: resolve the port, derive the selector
in `[0, 11]`, then run the matching `switch` case. -/
def io_fuzzer_iterate (f : IOFuzzer) (stringAddr : Nat) (s : Stream) : Dispatch :=
  let p := resolvePort f s
  let q := input_derive_range p.2 0 11
  let c := dispatchCase stringAddr p.1 q.1 q.2
  Dispatch.mk p.1 q.1 c.1 c.2.1 c.2.2.1 c.2.2.2

/-- The primitive invocations of a trace, in order. -/
def primCalls (evs : List Event) : List PrimCall :=
  evs.filterMap (fun e =>
    match e with
    | Event.prim p => some p
    | _ => none)

/-- The log calls of a trace, in order. -/
def logCalls (evs : List Event) : List (String × List (String × CVal)) :=
  evs.filterMap (fun e =>
    match e with
    | Event.log fmt args => some (fmt, args)
    | _ => none)

/-- The error-reporter calls of a trace, in order. -/
def errorReports (evs : List Event) : List (Int × Int × String) :=
  evs.filterMap (fun e =>
    match e with
    | Event.errorReport st er m => some (st, er, m)
    | _ => none)

/-- The value of the `"function"` field of a log call's arguments. -/
def logFunction (args : List (String × CVal)) : Option String :=
  match args.lookup "function" with
  | some (CVal.str s) => some s
  | _ => none

/-! ## The default log handler (`main.c`, `default_log_handler`) -/

/-- The opening brace character, written by escape to keep braces out of
source literals. -/
def lb : Char := '\x7b'

/-- The closing brace character. -/
def rb : Char := '\x7d'

/-- The double-quote character. -/
def qt : Char := '\x22'

/-- A single decimal digit as a character. -/
def digitChar : Nat → Char
  | 0 => '0'
  | 1 => '1'
  | 2 => '2'
  | 3 => '3'
  | 4 => '4'
  | 5 => '5'
  | 6 => '6'
  | 7 => '7'
  | 8 => '8'
  | _ => '9'

/-- A single hexadecimal digit as a character (lowercase, as `%x` prints). -/
def hexDigitChar (n : Nat) : Char :=
  if n < 10 then digitChar n
  else if n = 10 then 'a'
  else if n = 11 then 'b'
  else if n = 12 then 'c'
  else if n = 13 then 'd'
  else if n = 14 then 'e'
  else 'f'

/-- The decimal rendering of a natural number, as `printf` prints it. -/
def decDigits (n : Nat) : List Char :=
  if n < 10 then [digitChar n]
  else decDigits (n / 10) ++ [digitChar (n % 10)]
decreasing_by exact Nat.div_lt_self (by omega) (by omega)

/-- The octal rendering of a natural number, as `%o` prints it. -/
def octDigits (n : Nat) : List Char :=
  if n < 8 then [digitChar n]
  else octDigits (n / 8) ++ [digitChar (n % 8)]
decreasing_by exact Nat.div_lt_self (by omega) (by omega)

/-- The hexadecimal rendering of a natural number, as `%x` prints it. -/
def hexDigits (n : Nat) : List Char :=
  if n < 16 then [hexDigitChar n]
  else hexDigits (n / 16) ++ [hexDigitChar (n % 16)]
decreasing_by exact Nat.div_lt_self (by omega) (by omega)

/-- The rendering of a signed integer, as `%d` prints it. -/
def intRender (i : Int) : List Char :=
  if i < 0 then '-' :: decDigits (-i).toNat
  else decDigits i.toNat

/-- The 32-bit two's-complement reinterpretation of a raw value, used when a
value is consumed through a signed `int` conversion. -/
def toInt32 (n : Nat) : Int :=
  if n % 4294967296 < 2147483648 then ((n % 4294967296 : Nat) : Int)
  else ((n % 4294967296 : Nat) : Int) - 4294967296

/-- The raw integer of a vararg, as read through an integer `va_arg`.
Reading a `char *` vararg through an integer conversion is undefined
behavior in C and unreached at the call sites verified here; it is given the
total value 0. -/
def CVal.asNum : CVal → Nat
  | CVal.num n => n
  | CVal.str _ => 0

/-- The string of a vararg, as read through `va_arg(ap, char *)`.  Reading
an integer vararg as a pointer is undefined behavior in C and unreached at
the call sites verified here. -/
def CVal.asStr : CVal → String
  | CVal.num _ => ""
  | CVal.str s => s

/-- One `case` of the type-tag `switch` in `default_log_handler`: the
characters printed for a value under a recognized tag, or `none` for the
`default: abort()` branch.  `%f` consumes a `double`; no verified call site
passes one, so its exact decimal expansion is not modelled beyond consuming
the argument. -/
def renderTag (c : Char) (v : CVal) : Option (List Char) :=
  if c = 'c' then some ([qt, Char.ofNat (v.asNum % 256), qt])
  else if c = 'd' then some (intRender (toInt32 v.asNum))
  else if c = 'f' then some (decDigits v.asNum ++ ['.', '0', '0', '0', '0', '0', '0'])
  else if c = 'o' then some (octDigits (v.asNum % 4294967296))
  else if c = 'p' then some ('0' :: 'x' :: hexDigits (v.asNum % 18446744073709551616))
  else if c = 'q' then some (decDigits (v.asNum % 18446744073709551616))
  else if c = 's' then some (qt :: (v.asStr).data ++ [qt])
  else if c = 'u' then some (decDigits (v.asNum % 4294967296))
  else if c = 'x' then some (hexDigits (v.asNum % 4294967296))
  else if c = 'z' then some (decDigits (v.asNum % 18446744073709551616))
  else none

/-- The recognized closed set of type tags of `default_log_handler`. -/
def recognizedTag (c : Char) : Bool :=
  c = 'c' || c = 'd' || c = 'f' || c = 'o' || c = 'p' || c = 'q' ||
  c = 's' || c = 'u' || c = 'x' || c = 'z'

/-- The field loop of `default_log_handler`: for each format character, the
separator (skipped for the first field), the quoted key, and the value
rendered by its tag; an unrecognized tag aborts after the key has been
printed.  Running past the supplied varargs is undefined behavior in C and
unreached at the verified call sites; it reads an empty key and a zero
value. -/
def renderFields : List Char → List (String × CVal) → Bool → List Char × Bool
  | [], _, _ => ([], false)
  | c :: cs, args, first =>
    let kv := match args with
      | [] => ("", CVal.num 0, ([] : List (String × CVal)))
      | a :: r => (a.1, a.2, r)
    let pre := (if first then [] else [',', ' ']) ++
      (qt :: kv.1.data ++ [qt, ':', ' '])
    match renderTag c kv.2.1 with
    | some piece =>
      let rest := renderFields cs kv.2.2 false
      (pre ++ piece ++ rest.1, rest.2)
    | none => (pre, true)

/-- The fixed opening of every record: the brace and the quoted `time` key,
ten characters long. -/
def recordOpen : List Char :=
  [lb, ' ', qt, 't', 'i', 'm', 'e', qt, ':', ' ']

/-- `default_log_handler` from `main.c`: under the stream lock, print the
opening brace and the `time` field (the `time_t` cast to `unsigned int` and
printed with `%d`), then each key/value field per the format, then the
closing brace and newline, flushing and syncing; an unrecognized type tag
calls `abort()` mid-record. -/
def default_log_handler (time : Nat) (fmt : String) (args : List (String × CVal)) :
    LogOutcome :=
  let hd := recordOpen ++ intRender (toInt32 (time % 4294967296)) ++ [',']
  let body := renderFields fmt.data args true
  if body.2 then LogOutcome.mk (hd ++ body.1) true
  else LogOutcome.mk (hd ++ body.1 ++ [' ', rb, '\n']) false

/-! ## The default error handler (`main.c`, `default_error_handler`) -/

/-- `default_error_handler` from `main.c`: flush stdout, print the message
to stderr, append the platform error description when the code is nonzero,
flush stderr, then `abort()`. -/
def default_error_handler : EHandler := fun _ error msg =>
  ErrOutcome.mk
    ([ErrEvent.flushStdout, ErrEvent.writeStderr msg] ++
      (if error ≠ 0 then [ErrEvent.writeStderrErrno error] else []) ++
      [ErrEvent.flushStderr, ErrEvent.abortProc])
    true

/-! ## Specification-side definitions -/

/-- The operation catalog as the specification states it (§4.1): for each
selector in `[0, 11]`, the name, bit width and kind of the primitive that
must be invoked.  This definition follows the spec's table, to be compared
with the dispatch extracted from the source. -/
def specCatalog : Nat → String × Nat × PrimKind
  | 0 => ("io_read16", 16, PrimKind.scalarRead)
  | 1 => ("io_read32", 32, PrimKind.scalarRead)
  | 2 => ("io_read8", 8, PrimKind.scalarRead)
  | 3 => ("io_read_string16", 16, PrimKind.stringRead)
  | 4 => ("io_read_string32", 32, PrimKind.stringRead)
  | 5 => ("io_read_string8", 8, PrimKind.stringRead)
  | 6 => ("io_write16", 16, PrimKind.scalarWrite)
  | 7 => ("io_write32", 32, PrimKind.scalarWrite)
  | 8 => ("io_write8", 8, PrimKind.scalarWrite)
  | 9 => ("io_write_string16", 16, PrimKind.stringWrite)
  | 10 => ("io_write_string32", 32, PrimKind.stringWrite)
  | 11 => ("io_write_string8", 8, PrimKind.stringWrite)
  | _ => ("", 0, PrimKind.scalarRead)

/-- The string-operation count of derived operands, when there is one. -/
def Operands.countOf : Operands → Option Nat
  | Operands.noOperands => none
  | Operands.value _ => none
  | Operands.stringRead c => some c
  | Operands.stringWrite c _ => some c

/-- The element width in bytes of a string operation's selector. -/
def elemBytes : Nat → Nat
  | 3 => 2
  | 4 => 4
  | 5 => 1
  | 9 => 2
  | 10 => 4
  | 11 => 1
  | _ => 0

/-- The unread suffix of a stream: its content from the cursor on. -/
def sfx (s : Stream) : List Nat := s.data.drop s.pos

/-- Whether a trace event is a log call. -/
def Event.isLog : Event → Bool
  | Event.log _ _ => true
  | _ => false

/-- Whether a trace event is a primitive invocation. -/
def Event.isPrim : Event → Bool
  | Event.prim _ => true
  | _ => false

/-! ## Basic facts about the dispatcher -/

theorem iterate_port (f : IOFuzzer) (a : Nat) (s : Stream) :
    (io_fuzzer_iterate f a s).port = (resolvePort f s).1 := rfl

theorem iterate_selector (f : IOFuzzer) (a : Nat) (s : Stream) :
    (io_fuzzer_iterate f a s).selector =
      (input_derive_range (resolvePort f s).2 0 11).1 := rfl

theorem iterate_events (f : IOFuzzer) (a : Nat) (s : Stream) :
    (io_fuzzer_iterate f a s).events =
      (dispatchCase a (resolvePort f s).1
        (input_derive_range (resolvePort f s).2 0 11).1
        (input_derive_range (resolvePort f s).2 0 11).2).2.1 := rfl

theorem iterate_operands (f : IOFuzzer) (a : Nat) (s : Stream) :
    (io_fuzzer_iterate f a s).operands =
      (dispatchCase a (resolvePort f s).1
        (input_derive_range (resolvePort f s).2 0 11).1
        (input_derive_range (resolvePort f s).2 0 11).2).1 := rfl

/-- The selector derived by one iteration always lies in `[0, 11]`. -/
theorem selector_le_11 (f : IOFuzzer) (a : Nat) (s : Stream) :
    (io_fuzzer_iterate f a s).selector ≤ 11 := by
  rw [iterate_selector]
  unfold input_derive_range
  simp only []
  omega

/-- Any selector at or beyond 12 falls through every `case` to the
`default: abort()` branch. -/
theorem dispatchCase_oob (a port sel : Nat) (s : Stream) (h : 12 ≤ sel) :
    dispatchCase a port sel s = (Operands.noOperands, [], true, s) := by
  unfold dispatchCase
  split <;> first | rfl | omega

/-- For every in-range selector, the switch emits exactly one log call
followed by exactly one primitive invocation; the log call's `"function"`
field carries the primitive's name, and the primitive's name, width and
kind match the spec catalog row for that selector. -/
theorem dispatchCase_shape (a port sel : Nat) (s : Stream) (h : sel ≤ 11) :
    ∃ fmt args p,
      (dispatchCase a port sel s).2.1 = [Event.log fmt args, Event.prim p] ∧
      logFunction args = some p.name ∧
      p.name = (specCatalog sel).1 ∧
      p.width = (specCatalog sel).2.1 ∧
      p.kind = (specCatalog sel).2.2 ∧
      p.port = port := by
  interval_cases sel <;> exact ⟨_, _, _, rfl, rfl, rfl, rfl, rfl, rfl⟩

/-! ## Claim C1 -/

/-- C1: one call to `io_fuzzer_iterate` derives a selector in `[0, 11]` and
invokes exactly one hardware primitive, whose name, width and kind match
the catalog row for that selector, and produces exactly one log call whose
`"function"` field is the name of that primitive. -/
theorem iterate_matches_catalog (f : IOFuzzer) (a : Nat) (s : Stream) :
    (io_fuzzer_iterate f a s).selector ≤ 11 ∧
    ∃ p, primCalls (io_fuzzer_iterate f a s).events = [p] ∧
      p.name = (specCatalog (io_fuzzer_iterate f a s).selector).1 ∧
      p.width = (specCatalog (io_fuzzer_iterate f a s).selector).2.1 ∧
      p.kind = (specCatalog (io_fuzzer_iterate f a s).selector).2.2 ∧
      ∃ fmt args, logCalls (io_fuzzer_iterate f a s).events = [(fmt, args)] ∧
        logFunction args = some p.name := by
  have hle : (input_derive_range (resolvePort f s).2 0 11).1 ≤ 11 := by
    rw [← iterate_selector f a s]; exact selector_le_11 f a s
  obtain ⟨fmt, args, p, hev, hlf, hname, hw, hk, hp⟩ :=
    dispatchCase_shape a (resolvePort f s).1 _
      (input_derive_range (resolvePort f s).2 0 11).2 hle
  refine ⟨selector_le_11 f a s, p, ?_, ?_, ?_, ?_, fmt, args, ?_, hlf⟩
  · rw [iterate_events, hev]; rfl
  · rw [iterate_selector]; exact hname
  · rw [iterate_selector]; exact hw
  · rw [iterate_selector]; exact hk
  · rw [iterate_events, hev]; rfl

/-! ## Claim C4 -/

/-- C4 counterexample: in the trace of a concrete iteration (selector 0)
the log event appears at index 0 and the primitive invocation at index 1:
the log record is emitted BEFORE the primitive is invoked, refuting the
claim that logging happens only after a completed invocation. -/
theorem log_precedes_primitive_counterexample :
    ((io_fuzzer_iterate (IOFuzzer.mk none 0 none none) 0
        (Stream.mk [] 0)).events.findIdx Event.isLog) = 0 ∧
    ((io_fuzzer_iterate (IOFuzzer.mk none 0 none none) 0
        (Stream.mk [] 0)).events.findIdx Event.isPrim) = 1 :=
  ⟨rfl, rfl⟩

/-- C4 (amended): for every iteration and every catalog operation, exactly
one log event describing the primitive invocation is emitted, and it is
emitted immediately before — not after — the primitive call: the trace is
always one log call followed by one primitive invocation, the log's
`"function"` field naming that primitive. -/
theorem log_immediately_precedes_primitive (f : IOFuzzer) (a : Nat) (s : Stream) :
    ∃ fmt args p,
      (io_fuzzer_iterate f a s).events = [Event.log fmt args, Event.prim p] ∧
      logFunction args = some p.name := by
  have hle : (input_derive_range (resolvePort f s).2 0 11).1 ≤ 11 := by
    rw [← iterate_selector f a s]; exact selector_le_11 f a s
  obtain ⟨fmt, args, p, hev, hlf, _, _, _, _⟩ :=
    dispatchCase_shape a (resolvePort f s).1 _
      (input_derive_range (resolvePort f s).2 0 11).2 hle
  exact ⟨fmt, args, p, by rw [iterate_events, hev], hlf⟩

/-! ## Claim C2 -/

/-- C2 counterexample: at the out-of-range selector 12 the switch terminates
through a direct `abort()` and never calls `io_fuzzer_error`: the trace
contains no error report, refuting the claim that termination is routed via
the Fatal Error Reporter (the zero-primitive and zero-log part does hold). -/
theorem oob_selector_no_reporter_call :
    (dispatchCase 0 0 12 (Stream.mk [] 0)).2.2.1 = true ∧
    errorReports (dispatchCase 0 0 12 (Stream.mk [] 0)).2.1 = [] ∧
    primCalls (dispatchCase 0 0 12 (Stream.mk [] 0)).2.1 = [] ∧
    logCalls (dispatchCase 0 0 12 (Stream.mk [] 0)).2.1 = [] :=
  ⟨rfl, rfl, rfl, rfl⟩

/-- C2 (amended): for every selector value outside `[0, 11]`, the dispatch
terminates the process immediately via a direct `abort()` — not through the
Fatal Error Reporter — with an empty trace: zero primitive invocations and
zero log records for that iteration. -/
theorem oob_selector_fatal (a port sel : Nat) (s : Stream) (h : 12 ≤ sel) :
    (dispatchCase a port sel s).2.2.1 = true ∧
    (dispatchCase a port sel s).2.1 = [] := by
  rw [dispatchCase_oob a port sel s h]
  exact ⟨rfl, rfl⟩

theorem oob_selector_fatal_witness :
    (dispatchCase 1 2 12 (Stream.mk [3] 0)).2.2.1 = true ∧
    (dispatchCase 1 2 12 (Stream.mk [3] 0)).2.1 = [] :=
  oob_selector_fatal 1 2 12 (Stream.mk [3] 0) (by omega)

/-! ## Claim C7 -/

/-- An unrecognized type tag selects the `default: abort()` branch of the
logger's switch. -/
theorem renderTag_none_of_unrecognized (c : Char) (v : CVal)
    (h : recognizedTag c = false) : renderTag c v = none := by
  unfold recognizedTag at h
  simp only [Bool.or_eq_false_iff, decide_eq_false_iff_not] at h
  obtain ⟨⟨⟨⟨⟨⟨⟨⟨⟨h1, h2⟩, h3⟩, h4⟩, h5⟩, h6⟩, h7⟩, h8⟩, h9⟩, h10⟩ := h
  unfold renderTag
  rw [if_neg h1, if_neg h2, if_neg h3, if_neg h4, if_neg h5, if_neg h6, if_neg h7,
    if_neg h8, if_neg h9, if_neg h10]

/-- If the format holds an unrecognized tag anywhere, the field loop reaches
it and aborts. -/
theorem renderFields_aborts (cs : List Char) (c : Char)
    (hu : recognizedTag c = false) :
    ∀ (args : List (String × CVal)) (first : Bool), c ∈ cs →
      (renderFields cs args first).2 = true := by
  induction cs with
  | nil => intro args first h; cases h
  | cons d cs ih =>
    intro args first h
    rcases List.mem_cons.mp h with rfl | hmem
    · rcases args with _ | ⟨⟨k, v⟩, rest⟩
      · simp [renderFields, renderTag_none_of_unrecognized c (CVal.num 0) hu]
      · simp [renderFields, renderTag_none_of_unrecognized c v hu]
    · rcases args with _ | ⟨⟨k, v⟩, rest⟩
      · cases hr : renderTag d (CVal.num 0) with
        | none => simp [renderFields, hr]
        | some piece => simp [renderFields, hr]; exact ih [] false hmem
      · cases hr : renderTag d v with
        | none => simp [renderFields, hr]
        | some piece => simp [renderFields, hr]; exact ih rest false hmem

/-- C7: every log call whose format contains a type tag outside the
recognized closed set aborts the process inside `default_log_handler`
rather than skipping the value or finishing the record. -/
theorem log_handler_aborts_on_unrecognized_tag (t : Nat) (fmt : String)
    (args : List (String × CVal)) (c : Char) (hc : c ∈ fmt.data)
    (hu : recognizedTag c = false) :
    (default_log_handler t fmt args).aborted = true := by
  have hb : (renderFields fmt.data args true).2 = true :=
    renderFields_aborts fmt.data c hu args true hc
  simp [default_log_handler, hb]

theorem log_handler_abort_witness :
    ('b' ∈ "b".data ∧ recognizedTag 'b' = false) ∧
    (default_log_handler 0 "b" []).aborted = true :=
  ⟨by decide, log_handler_aborts_on_unrecognized_tag 0 "b" [] 'b' (by decide) (by decide)⟩

/-! ## Claim C8 -/

/-- C8 counterexample: with no error handler explicitly installed (the
initial `NULL` state of the process-wide singleton), a fatal condition
reported through `io_fuzzer_error` produces no report and no termination,
and `io_fuzzer_create` on allocation failure continues past the reported
condition, returning `NULL`. -/
theorem error_without_handler_is_silent_noop :
    io_fuzzer_error initial_error_handler 0 12 "io_fuzzer_create" =
      ErrOutcome.mk [] false ∧
    (io_fuzzer_create initial_error_handler false none 0 12).result = none ∧
    (io_fuzzer_create initial_error_handler false none 0 12).terminated = false :=
  ⟨rfl, rfl, rfl⟩

/-- C8 (amended): with the driver's `default_error_handler` installed — the
configuration `main` establishes before any core call — every fatal
condition reported through `io_fuzzer_error` writes the message to the
diagnostic stream and ends in `abort()`, and the core never continues past
it: `io_fuzzer_create` on allocation failure terminates inside the report
instead of returning. -/
theorem error_default_handler_fail_fast (status error errno : Int)
    (msg : String) (ports : Option (List Int)) (n : Nat) :
    ErrEvent.writeStderr msg ∈
      (io_fuzzer_error (some default_error_handler) status error msg).events ∧
    (io_fuzzer_error (some default_error_handler) status error msg).events.getLast? =
      some ErrEvent.abortProc ∧
    (io_fuzzer_error (some default_error_handler) status error msg).terminated = true ∧
    (io_fuzzer_create (some default_error_handler) false ports n errno).terminated = true := by
  unfold io_fuzzer_create io_fuzzer_error default_error_handler
  refine ⟨by simp, ?_, rfl, by simp⟩
  by_cases h : error = 0 <;> simp [h, List.getLast?]

/-! ## Claim C3 -/

/-- Every byte read from the stream is below 256. -/
theorem byteAt_lt (s : Stream) (i : Nat) : byteAt s i < 256 :=
  Nat.mod_lt _ (by omega)

/-- C3: with a `NULL` or empty allow-list the resolved port is a
stream-derived value in `[0, 65535]`; with a non-empty allow-list of `N`
port numbers an index in `[0, N-1]` is derived from the stream and the
resolved port equals the allow-list entry at that index, hence is always
one of the `N` listed values. -/
theorem port_resolution (f : IOFuzzer) (a : Nat) (s : Stream) :
    ((f.ports = none ∨ f.num_ports = 0) →
      (io_fuzzer_iterate f a s).port ≤ 65535) ∧
    (∀ l, f.ports = some l → f.num_ports = l.length → 0 < l.length →
      (∀ x ∈ l, 0 ≤ x ∧ x < 65536) →
      ∃ i, i ≤ l.length - 1 ∧
        ((io_fuzzer_iterate f a s).port : Int) = l.getD i 0 ∧
        ((io_fuzzer_iterate f a s).port : Int) ∈ l) := by
  constructor
  · intro hcase
    rw [iterate_port]
    unfold resolvePort
    rcases hf : f.ports with _ | l
    · simp only [input_derive_range, MAX_PORTS]
      omega
    · rcases hcase with h | h
      · rw [hf] at h; cases h
      · simp only [h, if_pos, input_derive_range, MAX_PORTS]
        simp
        omega
  · intro l hl hn hpos hbound
    rw [iterate_port]
    unfold resolvePort
    have hne : ¬ f.num_ports = 0 := by omega
    simp only [hl, if_neg hne]
    set i := (input_derive_range s 0 (f.num_ports - 1)).1 with hi
    have hilt : i < l.length := by
      rw [hi]
      unfold input_derive_range
      simp only []
      have hmod : (input_read32 s).1 % (f.num_ports - 1 - 0 + 1) <
          f.num_ports - 1 - 0 + 1 := Nat.mod_lt _ (by omega)
      omega
    have hmem : l.getD i 0 ∈ l := by
      rw [List.getD_eq_getElem l 0 hilt]
      exact List.getElem_mem hilt
    obtain ⟨h0, h65⟩ := hbound _ hmem
    have hemod : (l.getD i 0).emod 65536 = l.getD i 0 :=
      Int.emod_eq_of_lt h0 h65
    refine ⟨i, by omega, ?_, ?_⟩
    · simp only [hemod, Int.toNat_of_nonneg h0]
    · simp only [hemod, Int.toNat_of_nonneg h0]
      exact hmem

theorem port_resolution_witness :
    (io_fuzzer_iterate (IOFuzzer.mk none 0 none none) 0 (Stream.mk [] 0)).port ≤ 65535 ∧
    ∃ i, i ≤ ([(96 : Int)]).length - 1 ∧
      ((io_fuzzer_iterate (IOFuzzer.mk (some [(96 : Int)]) 1 none none) 0
          (Stream.mk [] 0)).port : Int) = ([(96 : Int)]).getD i 0 ∧
      ((io_fuzzer_iterate (IOFuzzer.mk (some [(96 : Int)]) 1 none none) 0
          (Stream.mk [] 0)).port : Int) ∈ [(96 : Int)] :=
  ⟨(port_resolution (IOFuzzer.mk none 0 none none) 0 (Stream.mk [] 0)).1 (Or.inl rfl),
   (port_resolution (IOFuzzer.mk (some [(96 : Int)]) 1 none none) 0 (Stream.mk [] 0)).2
     [(96 : Int)] rfl rfl (by decide) (by decide)⟩

/-! ## Claim C5 -/

/-- Advancing the cursor drops the consumed bytes from the unread suffix. -/
theorem sfx_advance (s : Stream) (n : Nat) :
    sfx (advance s n) = (sfx s).drop n := by
  simp [sfx, advance, List.drop_drop, Nat.add_comm]

/-- Byte reads depend only on the unread suffix. -/
theorem byteAt_congr (s1 s2 : Stream) (h : sfx s1 = sfx s2) :
    byteAt s1 = byteAt s2 := by
  funext i
  unfold byteAt
  unfold sfx at h
  rw [h]

/-- Equality of unread suffixes is preserved by advancing both cursors. -/
theorem sfx_advance_congr (s1 s2 : Stream) (h : sfx s1 = sfx s2) (n : Nat) :
    sfx (advance s1 n) = sfx (advance s2 n) := by
  rw [sfx_advance, sfx_advance, h]

/-- Advancing twice advances by the sum. -/
theorem advance_advance (s : Stream) (n m : Nat) :
    advance (advance s n) m = advance s (n + m) := by
  simp [advance, Nat.add_assoc]

/-- Port resolution always consumes exactly four bytes. -/
theorem resolvePort_snd (f : IOFuzzer) (s : Stream) :
    (resolvePort f s).2 = advance s 4 := by
  unfold resolvePort
  rcases f.ports with _ | l
  · rfl
  · by_cases hnp : f.num_ports = 0
    · simp only [if_pos hnp]; rfl
    · simp only [if_neg hnp]; rfl

/-- `derive_range` consumes exactly four bytes. -/
theorem input_derive_range_snd (s : Stream) (lo hi : Nat) :
    (input_derive_range s lo hi).2 = advance s 4 := rfl

/-- The resolved port depends only on the unread suffix. -/
theorem resolvePort_fst_congr (f : IOFuzzer) (s1 s2 : Stream)
    (h : sfx s1 = sfx s2) :
    (resolvePort f s1).1 = (resolvePort f s2).1 := by
  have h0 : byteAt s1 = byteAt s2 := byteAt_congr s1 s2 h
  unfold resolvePort
  rcases f.ports with _ | l
  · simp only [input_derive_range, input_read32, h0]
  · by_cases hnp : f.num_ports = 0
    · simp only [if_pos hnp, input_derive_range, input_read32, h0]
    · simp only [if_neg hnp, input_derive_range, input_read32, h0]

/-- The derived operands depend only on the unread suffix of the stream the
switch receives. -/
theorem dispatchCase_operands_congr (a port sel : Nat) (t1 t2 : Stream)
    (h : sfx t1 = sfx t2) :
    (dispatchCase a port sel t1).1 = (dispatchCase a port sel t2).1 := by
  have h0 : byteAt t1 = byteAt t2 := byteAt_congr t1 t2 h
  have ha : ∀ n, byteAt (advance t1 n) = byteAt (advance t2 n) := fun n =>
    byteAt_congr _ _ (sfx_advance_congr t1 t2 h n)
  by_cases hs : sel ≤ 11
  · interval_cases sel <;>
      simp only [dispatchCase, input_read16, input_read32, input_read8,
        input_read_buffer, h0, ha]
  · rw [dispatchCase_oob a port sel t1 (by omega),
      dispatchCase_oob a port sel t2 (by omega)]

/-- C5: the dispatch is a deterministic function of stream content and
configuration: two runs of `io_fuzzer_iterate` on the same instance given
identical byte-stream content from the same starting cursor position derive
the identical (port, selector, operands) triple. -/
theorem iterate_deterministic (f : IOFuzzer) (a : Nat) (s1 s2 : Stream)
    (h : s1.data.drop s1.pos = s2.data.drop s2.pos) :
    (io_fuzzer_iterate f a s1).port = (io_fuzzer_iterate f a s2).port ∧
    (io_fuzzer_iterate f a s1).selector = (io_fuzzer_iterate f a s2).selector ∧
    (io_fuzzer_iterate f a s1).operands = (io_fuzzer_iterate f a s2).operands := by
  have hs : sfx s1 = sfx s2 := h
  have ha4 : byteAt (advance s1 4) = byteAt (advance s2 4) :=
    byteAt_congr _ _ (sfx_advance_congr s1 s2 hs 4)
  have hport : (resolvePort f s1).1 = (resolvePort f s2).1 :=
    resolvePort_fst_congr f s1 s2 hs
  have hsel : (input_derive_range (resolvePort f s1).2 0 11).1 =
      (input_derive_range (resolvePort f s2).2 0 11).1 := by
    rw [resolvePort_snd, resolvePort_snd]
    simp only [input_derive_range, input_read32, ha4]
  refine ⟨by rw [iterate_port, iterate_port]; exact hport,
    by rw [iterate_selector, iterate_selector]; exact hsel, ?_⟩
  rw [iterate_operands, iterate_operands, hport, hsel,
    resolvePort_snd, resolvePort_snd, input_derive_range_snd, input_derive_range_snd]
  exact dispatchCase_operands_congr a (resolvePort f s2).1
    (input_derive_range (advance s2 4) 0 11).1 _ _
    (sfx_advance_congr _ _ (sfx_advance_congr s1 s2 hs 4) 4)

theorem iterate_deterministic_witness :
    ((Stream.mk [7, 1, 2, 3] 1).data.drop 1 = (Stream.mk [1, 2, 3] 0).data.drop 0) ∧
    ((io_fuzzer_iterate (IOFuzzer.mk none 0 none none) 0 (Stream.mk [7, 1, 2, 3] 1)).port =
      (io_fuzzer_iterate (IOFuzzer.mk none 0 none none) 0 (Stream.mk [1, 2, 3] 0)).port ∧
    (io_fuzzer_iterate (IOFuzzer.mk none 0 none none) 0 (Stream.mk [7, 1, 2, 3] 1)).selector =
      (io_fuzzer_iterate (IOFuzzer.mk none 0 none none) 0 (Stream.mk [1, 2, 3] 0)).selector ∧
    (io_fuzzer_iterate (IOFuzzer.mk none 0 none none) 0 (Stream.mk [7, 1, 2, 3] 1)).operands =
      (io_fuzzer_iterate (IOFuzzer.mk none 0 none none) 0 (Stream.mk [1, 2, 3] 0)).operands) :=
  ⟨by decide,
   iterate_deterministic (IOFuzzer.mk none 0 none none) 0
     (Stream.mk [7, 1, 2, 3] 1) (Stream.mk [1, 2, 3] 0) (by decide)⟩

/-! ## Claim C9 -/

/-- The count bound of the switch: any string operation's count comes from
a 16-bit read and is at most 65535; times the element width it fits the
scratch capacity; a string write's stream-derived payload is exactly
`count * width` bytes. -/
theorem dispatchCase_count_bound (a port sel : Nat) (s : Stream) (hs : sel ≤ 11)
    (c : Nat) (hc : ((dispatchCase a port sel s).1).countOf = some c) :
    c ≤ 65535 ∧ c * elemBytes sel ≤ MAX_STRING ∧
    ∀ d, (dispatchCase a port sel s).1 = Operands.stringWrite c d →
      d.length = c * elemBytes sel := by
  have hb0 : byteAt s 0 < 256 := byteAt_lt s 0
  have hb1 : byteAt s 1 < 256 := byteAt_lt s 1
  interval_cases sel
  · simp [dispatchCase, Operands.countOf] at hc
  · simp [dispatchCase, Operands.countOf] at hc
  · simp [dispatchCase, Operands.countOf] at hc
  · simp only [dispatchCase, input_read16, Operands.countOf, Option.some.injEq] at hc
    subst hc
    exact ⟨by omega, by simp [elemBytes, MAX_STRING]; omega, fun d hd => by simp [dispatchCase, input_read16] at hd⟩
  · simp only [dispatchCase, input_read16, Operands.countOf, Option.some.injEq] at hc
    subst hc
    exact ⟨by omega, by simp [elemBytes, MAX_STRING]; omega, fun d hd => by simp [dispatchCase, input_read16] at hd⟩
  · simp only [dispatchCase, input_read16, Operands.countOf, Option.some.injEq] at hc
    subst hc
    exact ⟨by omega, by simp [elemBytes, MAX_STRING]; omega, fun d hd => by simp [dispatchCase, input_read16] at hd⟩
  · simp [dispatchCase, input_read16, Operands.countOf] at hc
  · simp [dispatchCase, input_read32, Operands.countOf] at hc
  · simp [dispatchCase, input_read8, Operands.countOf] at hc
  · simp only [dispatchCase, input_read16, input_read_buffer, Operands.countOf,
      Option.some.injEq] at hc
    subst hc
    refine ⟨by omega, by simp [elemBytes, MAX_STRING]; omega, ?_⟩
    intro d hd
    simp only [dispatchCase, input_read16, input_read_buffer,
      Operands.stringWrite.injEq, true_and] at hd
    rw [← hd]
    simp [elemBytes]
  · simp only [dispatchCase, input_read16, input_read_buffer, Operands.countOf,
      Option.some.injEq] at hc
    subst hc
    refine ⟨by omega, by simp [elemBytes, MAX_STRING]; omega, ?_⟩
    intro d hd
    simp only [dispatchCase, input_read16, input_read_buffer,
      Operands.stringWrite.injEq, true_and] at hd
    rw [← hd]
    simp [elemBytes]
  · simp only [dispatchCase, input_read16, input_read_buffer, Operands.countOf,
      Option.some.injEq] at hc
    subst hc
    refine ⟨by omega, by simp [elemBytes, MAX_STRING]; omega, ?_⟩
    intro d hd
    simp only [dispatchCase, input_read16, input_read_buffer,
      Operands.stringWrite.injEq, true_and] at hd
    rw [← hd]
    simp [elemBytes]

/-- C9: for every string operation of one iteration, the count derived by
the 16-bit read is at most 65535, count times the element width in bytes
never exceeds the scratch capacity `MAX_STRING = 65535 * 4`, and a string
write's stream-derived payload is exactly `count * width` bytes — every
buffer access during operand derivation and invocation stays in bounds. -/
theorem string_counts_within_buffer (f : IOFuzzer) (a : Nat) (s : Stream)
    (c : Nat) (hc : ((io_fuzzer_iterate f a s).operands).countOf = some c) :
    c ≤ 65535 ∧
    c * elemBytes (io_fuzzer_iterate f a s).selector ≤ MAX_STRING ∧
    ∀ d, (io_fuzzer_iterate f a s).operands = Operands.stringWrite c d →
      d.length = c * elemBytes (io_fuzzer_iterate f a s).selector := by
  have hle : (input_derive_range (resolvePort f s).2 0 11).1 ≤ 11 := by
    rw [← iterate_selector f a s]; exact selector_le_11 f a s
  rw [iterate_operands] at hc
  rw [iterate_operands, iterate_selector]
  exact dispatchCase_count_bound a (resolvePort f s).1 _
    (input_derive_range (resolvePort f s).2 0 11).2 hle c hc

theorem string_counts_witness :
    (((io_fuzzer_iterate (IOFuzzer.mk none 0 none none) 0
        (Stream.mk [0, 0, 0, 0, 9, 0, 0, 0, 2, 0, 1, 2, 3, 4] 0)).operands).countOf =
      some 2) ∧
    2 ≤ 65535 ∧
    2 * elemBytes (io_fuzzer_iterate (IOFuzzer.mk none 0 none none) 0
        (Stream.mk [0, 0, 0, 0, 9, 0, 0, 0, 2, 0, 1, 2, 3, 4] 0)).selector ≤ MAX_STRING ∧
    ∀ d, (io_fuzzer_iterate (IOFuzzer.mk none 0 none none) 0
        (Stream.mk [0, 0, 0, 0, 9, 0, 0, 0, 2, 0, 1, 2, 3, 4] 0)).operands =
          Operands.stringWrite 2 d →
      d.length = 2 * elemBytes (io_fuzzer_iterate (IOFuzzer.mk none 0 none none) 0
        (Stream.mk [0, 0, 0, 0, 9, 0, 0, 0, 2, 0, 1, 2, 3, 4] 0)).selector :=
  ⟨by decide, string_counts_within_buffer (IOFuzzer.mk none 0 none none) 0
    (Stream.mk [0, 0, 0, 0, 9, 0, 0, 0, 2, 0, 1, 2, 3, 4] 0) 2 (by decide)⟩

/-! ## Claim C6 -/

/-- Decimal digits are never structural delimiters of a record. -/
theorem digitChar_ne_delims (m : Nat) :
    digitChar m ≠ lb ∧ digitChar m ≠ rb ∧ digitChar m ≠ qt := by
  unfold digitChar
  split <;> exact ⟨by decide, by decide, by decide⟩

/-- A decimal rendering contains no occurrence of a non-digit character. -/
theorem decDigits_count_eq_zero (n : Nat) (c : Char) (hc : ∀ m, digitChar m ≠ c) :
    (decDigits n).count c = 0 := by
  induction n using decDigits.induct with
  | case1 n h =>
    rw [decDigits, if_pos h, List.count_eq_zero]
    simp only [List.mem_singleton]
    exact fun hx => hc n hx.symm
  | case2 n h ih =>
    rw [decDigits, if_neg h, List.count_append, ih, Nat.zero_add, List.count_eq_zero]
    simp only [List.mem_singleton]
    exact fun hx => hc (n % 10) hx.symm

/-- A signed decimal rendering contains no structural delimiter either. -/
theorem intRender_count_eq_zero (i : Int) (c : Char) (hc : ∀ m, digitChar m ≠ c)
    (hm : c ≠ '-') : (intRender i).count c = 0 := by
  unfold intRender
  split_ifs
  · simp [List.count_cons, decDigits_count_eq_zero _ c hc, Ne.symm hm]
  · exact decDigits_count_eq_zero _ c hc

theorem count_lb_decDigits (n : Nat) : List.count '\x7b' (decDigits n) = 0 :=
  decDigits_count_eq_zero _ _ (fun m => (digitChar_ne_delims m).1)

theorem count_rb_decDigits (n : Nat) : List.count '\x7d' (decDigits n) = 0 :=
  decDigits_count_eq_zero _ _ (fun m => (digitChar_ne_delims m).2.1)

theorem count_qt_decDigits (n : Nat) : List.count '\x22' (decDigits n) = 0 :=
  decDigits_count_eq_zero _ _ (fun m => (digitChar_ne_delims m).2.2)

theorem count_lb_intRender (i : Int) : List.count '\x7b' (intRender i) = 0 :=
  intRender_count_eq_zero _ _ (fun m => (digitChar_ne_delims m).1) (by decide)

theorem count_rb_intRender (i : Int) : List.count '\x7d' (intRender i) = 0 :=
  intRender_count_eq_zero _ _ (fun m => (digitChar_ne_delims m).2.1) (by decide)

theorem count_qt_intRender (i : Int) : List.count '\x22' (intRender i) = 0 :=
  intRender_count_eq_zero _ _ (fun m => (digitChar_ne_delims m).2.2) (by decide)

/-- Record shape under the `"su"` format (scalar reads): no abort, exactly
one brace of each kind, an even number of quotes, and the ten-character
`time` opening first. -/
theorem handler_su (t p : Nat) (name : String)
    (h1 : name.data.count lb = 0) (h2 : name.data.count rb = 0)
    (h3 : name.data.count qt = 0) :
    (default_log_handler t "su" [("function", CVal.str name), ("port", CVal.num p)]).aborted = false ∧
    (default_log_handler t "su" [("function", CVal.str name), ("port", CVal.num p)]).output.count lb = 1 ∧
    (default_log_handler t "su" [("function", CVal.str name), ("port", CVal.num p)]).output.count rb = 1 ∧
    Even ((default_log_handler t "su" [("function", CVal.str name), ("port", CVal.num p)]).output.count qt) ∧
    (default_log_handler t "su" [("function", CVal.str name), ("port", CVal.num p)]).output.take 10 = recordOpen := by
  simp only [lb, rb, qt] at h1 h2 h3
  have hb : (renderFields "su".data
      [("function", CVal.str name), ("port", CVal.num p)] true).2 = false := by
    simp [renderFields, renderTag]
  refine ⟨by simp [default_log_handler, hb], ?_, ?_, ?_, ?_⟩
  · simp [default_log_handler, renderFields, renderTag, CVal.asStr, CVal.asNum, recordOpen,
      List.count_append, List.count_cons, count_lb_decDigits, count_lb_intRender, h1, lb, rb, qt]
  · simp [default_log_handler, renderFields, renderTag, CVal.asStr, CVal.asNum, recordOpen,
      List.count_append, List.count_cons, count_rb_decDigits, count_rb_intRender, h2, lb, rb, qt]
  · have hq : (default_log_handler t "su"
        [("function", CVal.str name), ("port", CVal.num p)]).output.count qt = 8 := by
      simp [default_log_handler, renderFields, renderTag, CVal.asStr, CVal.asNum, recordOpen,
        List.count_append, List.count_cons, count_qt_decDigits, count_qt_intRender, h3, lb, rb, qt]
    rw [hq]; decide
  · simp only [default_log_handler, hb, Bool.false_eq_true, if_false, List.append_assoc]
    rw [show (10 : Nat) = recordOpen.length from rfl, List.take_left]

set_option maxHeartbeats 1000000 in
/-- Record shape under the `"suu"` format (scalar writes). -/
theorem handler_suu (t p v : Nat) (name : String)
    (h1 : name.data.count lb = 0) (h2 : name.data.count rb = 0)
    (h3 : name.data.count qt = 0) :
    (default_log_handler t "suu" [("function", CVal.str name), ("port", CVal.num p), ("value", CVal.num v)]).aborted = false ∧
    (default_log_handler t "suu" [("function", CVal.str name), ("port", CVal.num p), ("value", CVal.num v)]).output.count lb = 1 ∧
    (default_log_handler t "suu" [("function", CVal.str name), ("port", CVal.num p), ("value", CVal.num v)]).output.count rb = 1 ∧
    Even ((default_log_handler t "suu" [("function", CVal.str name), ("port", CVal.num p), ("value", CVal.num v)]).output.count qt) ∧
    (default_log_handler t "suu" [("function", CVal.str name), ("port", CVal.num p), ("value", CVal.num v)]).output.take 10 = recordOpen := by
  simp only [lb, rb, qt] at h1 h2 h3
  have hb : (renderFields "suu".data
      [("function", CVal.str name), ("port", CVal.num p), ("value", CVal.num v)] true).2 = false := by
    simp [renderFields, renderTag]
  refine ⟨by simp [default_log_handler, hb], ?_, ?_, ?_, ?_⟩
  · simp [default_log_handler, renderFields, renderTag, CVal.asStr, CVal.asNum, recordOpen,
      List.count_append, List.count_cons, count_lb_decDigits, count_lb_intRender, h1, lb, rb, qt]
  · simp [default_log_handler, renderFields, renderTag, CVal.asStr, CVal.asNum, recordOpen,
      List.count_append, List.count_cons, count_rb_decDigits, count_rb_intRender, h2, lb, rb, qt]
  · have hq : (default_log_handler t "suu"
        [("function", CVal.str name), ("port", CVal.num p), ("value", CVal.num v)]).output.count qt = 10 := by
      simp [default_log_handler, renderFields, renderTag, CVal.asStr, CVal.asNum, recordOpen,
        List.count_append, List.count_cons, count_qt_decDigits, count_qt_intRender, h3, lb, rb, qt]
    rw [hq]; decide
  · simp only [default_log_handler, hb, Bool.false_eq_true, if_false, List.append_assoc]
    rw [show (10 : Nat) = recordOpen.length from rfl, List.take_left]

set_option maxHeartbeats 1600000 in
/-- Record shape under the `"suuu"` format (string operations). -/
theorem handler_suuu (t p b c : Nat) (name : String)
    (h1 : name.data.count lb = 0) (h2 : name.data.count rb = 0)
    (h3 : name.data.count qt = 0) :
    (default_log_handler t "suuu" [("function", CVal.str name), ("port", CVal.num p), ("string", CVal.num b), ("count", CVal.num c)]).aborted = false ∧
    (default_log_handler t "suuu" [("function", CVal.str name), ("port", CVal.num p), ("string", CVal.num b), ("count", CVal.num c)]).output.count lb = 1 ∧
    (default_log_handler t "suuu" [("function", CVal.str name), ("port", CVal.num p), ("string", CVal.num b), ("count", CVal.num c)]).output.count rb = 1 ∧
    Even ((default_log_handler t "suuu" [("function", CVal.str name), ("port", CVal.num p), ("string", CVal.num b), ("count", CVal.num c)]).output.count qt) ∧
    (default_log_handler t "suuu" [("function", CVal.str name), ("port", CVal.num p), ("string", CVal.num b), ("count", CVal.num c)]).output.take 10 = recordOpen := by
  simp only [lb, rb, qt] at h1 h2 h3
  have hb : (renderFields "suuu".data
      [("function", CVal.str name), ("port", CVal.num p), ("string", CVal.num b), ("count", CVal.num c)] true).2 = false := by
    simp [renderFields, renderTag]
  refine ⟨by simp [default_log_handler, hb], ?_, ?_, ?_, ?_⟩
  · simp [default_log_handler, renderFields, renderTag, CVal.asStr, CVal.asNum, recordOpen,
      List.count_append, List.count_cons, count_lb_decDigits, count_lb_intRender, h1, lb, rb, qt]
  · simp [default_log_handler, renderFields, renderTag, CVal.asStr, CVal.asNum, recordOpen,
      List.count_append, List.count_cons, count_rb_decDigits, count_rb_intRender, h2, lb, rb, qt]
  · have hq : (default_log_handler t "suuu"
        [("function", CVal.str name), ("port", CVal.num p), ("string", CVal.num b), ("count", CVal.num c)]).output.count qt = 12 := by
      simp [default_log_handler, renderFields, renderTag, CVal.asStr, CVal.asNum, recordOpen,
        List.count_append, List.count_cons, count_qt_decDigits, count_qt_intRender, h3, lb, rb, qt]
    rw [hq]; decide
  · simp only [default_log_handler, hb, Bool.false_eq_true, if_false, List.append_assoc]
    rw [show (10 : Nat) = recordOpen.length from rfl, List.take_left]

set_option maxHeartbeats 2000000 in
/-- C6: every log call the dispatcher makes, rendered by the default log
handler, yields a single self-contained well-formed record: no abort, the
closing marker written, exactly one opening and one closing brace, an even
number of quote marks, the ten-character `time` opening first, and the
field order `function`, `port`, then the operation-specific fields
(`value`, or `string` and `count`) in call order, each value rendered
according to its format type tag. -/
theorem log_records_well_formed (f : IOFuzzer) (a : Nat) (s : Stream)
    (t : Nat) (fmt : String) (args : List (String × CVal))
    (h : Event.log fmt args ∈ (io_fuzzer_iterate f a s).events) :
    (default_log_handler t fmt args).aborted = false ∧
    (default_log_handler t fmt args).output.count lb = 1 ∧
    (default_log_handler t fmt args).output.count rb = 1 ∧
    Even ((default_log_handler t fmt args).output.count qt) ∧
    (default_log_handler t fmt args).output.take 10 = recordOpen ∧
    ((fmt = "su" ∧ args.map Prod.fst = ["function", "port"]) ∨
     (fmt = "suu" ∧ args.map Prod.fst = ["function", "port", "value"]) ∨
     (fmt = "suuu" ∧ args.map Prod.fst = ["function", "port", "string", "count"])) := by
  have hle : (input_derive_range (resolvePort f s).2 0 11).1 ≤ 11 := by
    rw [← iterate_selector f a s]; exact selector_le_11 f a s
  rw [iterate_events] at h
  obtain ⟨port, hport⟩ : ∃ x, (resolvePort f s).1 = x := ⟨_, rfl⟩
  obtain ⟨sel, hsel⟩ : ∃ x, (input_derive_range (resolvePort f s).2 0 11).1 = x := ⟨_, rfl⟩
  obtain ⟨s2, hs2⟩ : ∃ x, (input_derive_range (resolvePort f s).2 0 11).2 = x := ⟨_, rfl⟩
  rw [hport, hsel, hs2] at h
  rw [hsel] at hle
  clear hport hsel hs2
  interval_cases sel
  · simp [dispatchCase] at h
    obtain ⟨rfl, rfl⟩ := h
    have hs := handler_su t port "io_read16" (by decide) (by decide) (by decide)
    exact ⟨hs.1, hs.2.1, hs.2.2.1, hs.2.2.2.1, hs.2.2.2.2, Or.inl ⟨rfl, rfl⟩⟩
  · simp [dispatchCase] at h
    obtain ⟨rfl, rfl⟩ := h
    have hs := handler_su t port "io_read32" (by decide) (by decide) (by decide)
    exact ⟨hs.1, hs.2.1, hs.2.2.1, hs.2.2.2.1, hs.2.2.2.2, Or.inl ⟨rfl, rfl⟩⟩
  · simp [dispatchCase] at h
    obtain ⟨rfl, rfl⟩ := h
    have hs := handler_su t port "io_read8" (by decide) (by decide) (by decide)
    exact ⟨hs.1, hs.2.1, hs.2.2.1, hs.2.2.2.1, hs.2.2.2.2, Or.inl ⟨rfl, rfl⟩⟩
  · simp [dispatchCase, input_read16] at h
    obtain ⟨rfl, rfl⟩ := h
    have hs := handler_suuu t port a (byteAt s2 0 + 256 * byteAt s2 1)
      "io_read_string16" (by decide) (by decide) (by decide)
    exact ⟨hs.1, hs.2.1, hs.2.2.1, hs.2.2.2.1, hs.2.2.2.2, Or.inr (Or.inr ⟨rfl, rfl⟩)⟩
  · simp [dispatchCase, input_read16] at h
    obtain ⟨rfl, rfl⟩ := h
    have hs := handler_suuu t port a (byteAt s2 0 + 256 * byteAt s2 1)
      "io_read_string32" (by decide) (by decide) (by decide)
    exact ⟨hs.1, hs.2.1, hs.2.2.1, hs.2.2.2.1, hs.2.2.2.2, Or.inr (Or.inr ⟨rfl, rfl⟩)⟩
  · simp [dispatchCase, input_read16] at h
    obtain ⟨rfl, rfl⟩ := h
    have hs := handler_suuu t port a (byteAt s2 0 + 256 * byteAt s2 1)
      "io_read_string8" (by decide) (by decide) (by decide)
    exact ⟨hs.1, hs.2.1, hs.2.2.1, hs.2.2.2.1, hs.2.2.2.2, Or.inr (Or.inr ⟨rfl, rfl⟩)⟩
  · simp [dispatchCase, input_read16] at h
    obtain ⟨rfl, rfl⟩ := h
    have hs := handler_suu t port (byteAt s2 0 + 256 * byteAt s2 1)
      "io_write16" (by decide) (by decide) (by decide)
    exact ⟨hs.1, hs.2.1, hs.2.2.1, hs.2.2.2.1, hs.2.2.2.2, Or.inr (Or.inl ⟨rfl, rfl⟩)⟩
  · simp [dispatchCase, input_read32] at h
    obtain ⟨rfl, rfl⟩ := h
    have hs := handler_suu t port
      (byteAt s2 0 + 256 * byteAt s2 1 + 65536 * byteAt s2 2 + 16777216 * byteAt s2 3)
      "io_write32" (by decide) (by decide) (by decide)
    exact ⟨hs.1, hs.2.1, hs.2.2.1, hs.2.2.2.1, hs.2.2.2.2, Or.inr (Or.inl ⟨rfl, rfl⟩)⟩
  · simp [dispatchCase, input_read8] at h
    obtain ⟨rfl, rfl⟩ := h
    have hs := handler_suu t port (byteAt s2 0)
      "io_write8" (by decide) (by decide) (by decide)
    exact ⟨hs.1, hs.2.1, hs.2.2.1, hs.2.2.2.1, hs.2.2.2.2, Or.inr (Or.inl ⟨rfl, rfl⟩)⟩
  · simp [dispatchCase, input_read16, input_read_buffer] at h
    obtain ⟨rfl, rfl⟩ := h
    have hs := handler_suuu t port a (byteAt s2 0 + 256 * byteAt s2 1)
      "io_write_string16" (by decide) (by decide) (by decide)
    exact ⟨hs.1, hs.2.1, hs.2.2.1, hs.2.2.2.1, hs.2.2.2.2, Or.inr (Or.inr ⟨rfl, rfl⟩)⟩
  · simp [dispatchCase, input_read16, input_read_buffer] at h
    obtain ⟨rfl, rfl⟩ := h
    have hs := handler_suuu t port a (byteAt s2 0 + 256 * byteAt s2 1)
      "io_write_string32" (by decide) (by decide) (by decide)
    exact ⟨hs.1, hs.2.1, hs.2.2.1, hs.2.2.2.1, hs.2.2.2.2, Or.inr (Or.inr ⟨rfl, rfl⟩)⟩
  · simp [dispatchCase, input_read16, input_read_buffer] at h
    obtain ⟨rfl, rfl⟩ := h
    have hs := handler_suuu t port a (byteAt s2 0 + 256 * byteAt s2 1)
      "io_write_string8" (by decide) (by decide) (by decide)
    exact ⟨hs.1, hs.2.1, hs.2.2.1, hs.2.2.2.1, hs.2.2.2.2, Or.inr (Or.inr ⟨rfl, rfl⟩)⟩


theorem log_records_well_formed_witness :
    (Event.log "su" [("function", CVal.str "io_read16"), ("port", CVal.num 0)] ∈
      (io_fuzzer_iterate (IOFuzzer.mk none 0 none none) 0 (Stream.mk [] 0)).events) ∧
    ((default_log_handler 7 "su" [("function", CVal.str "io_read16"), ("port", CVal.num 0)]).aborted = false ∧
     (default_log_handler 7 "su" [("function", CVal.str "io_read16"), ("port", CVal.num 0)]).output.count lb = 1 ∧
     (default_log_handler 7 "su" [("function", CVal.str "io_read16"), ("port", CVal.num 0)]).output.count rb = 1 ∧
     Even ((default_log_handler 7 "su" [("function", CVal.str "io_read16"), ("port", CVal.num 0)]).output.count qt) ∧
     (default_log_handler 7 "su" [("function", CVal.str "io_read16"), ("port", CVal.num 0)]).output.take 10 = recordOpen ∧
     (("su" = "su" ∧ ([("function", CVal.str "io_read16"), ("port", CVal.num 0)]).map Prod.fst = ["function", "port"]) ∨
      ("su" = "suu" ∧ ([("function", CVal.str "io_read16"), ("port", CVal.num 0)]).map Prod.fst = ["function", "port", "value"]) ∨
      ("su" = "suuu" ∧ ([("function", CVal.str "io_read16"), ("port", CVal.num 0)]).map Prod.fst = ["function", "port", "string", "count"]))) :=
  ⟨by decide,
   log_records_well_formed (IOFuzzer.mk none 0 none none) 0 (Stream.mk [] 0) 7 "su"
     [("function", CVal.str "io_read16"), ("port", CVal.num 0)] (by decide)⟩

/-! ## Claim C10 -/

/-- C10: each setter returns exactly the previously installed value and
leaves every other field of the instance unchanged: the error-handler
setter swaps only the process-wide singleton (it takes no instance), and
the log-handler and log-stream setters each replace exactly their own field
of the instance. -/
theorem setters_return_previous_and_preserve_rest (g h : Option EHandler)
    (f : IOFuzzer) (lh : Option LHandler) (st : Option Nat) :
    (io_fuzzer_set_error_handler g h).1 = g ∧
    (io_fuzzer_set_error_handler g h).2 = h ∧
    (io_fuzzer_set_log_handler f lh).1 = f.log_handler ∧
    (io_fuzzer_set_log_handler f lh).2.log_handler = lh ∧
    (io_fuzzer_set_log_handler f lh).2.ports = f.ports ∧
    (io_fuzzer_set_log_handler f lh).2.num_ports = f.num_ports ∧
    (io_fuzzer_set_log_handler f lh).2.log_stream = f.log_stream ∧
    (io_fuzzer_set_log_stream f st).1 = f.log_stream ∧
    (io_fuzzer_set_log_stream f st).2.log_stream = st ∧
    (io_fuzzer_set_log_stream f st).2.ports = f.ports ∧
    (io_fuzzer_set_log_stream f st).2.num_ports = f.num_ports ∧
    (io_fuzzer_set_log_stream f st).2.log_handler = f.log_handler :=
  ⟨rfl, rfl, rfl, rfl, rfl, rfl, rfl, rfl, rfl, rfl, rfl, rfl⟩

end IoFuzz
